import Mathlib

/-!
Verification of the semantic-search core of the a2a-registry repository.

The Python sources under `semantic-search/` are shallowly embedded below:

* `embeddings.py` — `EmbeddingService.embed_agent`'s text composition and
  `EmbeddingService.compute_similarity` (vectors modelled over `ℝ`, the
  clamping and zero-norm branches copied from the source).
* `database.py` — the `agent_embeddings` upsert (`store_embedding`) and the
  `search_similar` SQL pipeline (`WHERE similarity >= min_score`, optional
  `verified`/tag-overlap filters, `ORDER BY similarity DESC LIMIT top_k`).
  The per-row similarity value `1 - (embedding <=> query)` computed inside
  PostgreSQL is abstracted as a rational `score` field carried by each row;
  `ORDER BY` with no secondary key is modelled as a stable sort on the
  store's row order, since the SQL names no tie-break column.
* `main.py` — the `semantic_search` result formatting (`round(similarity, 4)`
  and the `matched_on` containment heuristic) and the `index_all_agents`
  batch loop with its per-agent `try/except` bookkeeping.
* `models.py` — the pydantic field bounds of `SemanticSearchRequest`.

Python `round(x, 4)` is modelled with Mathlib's `round` at scale `10^4`;
the two differ only at exact midpoints (half-even versus half-up), and no
statement below sits at a midpoint.
-/

/-- Character-list prefix test: `chStarts needle hay` is true when `needle`
is an initial segment of `hay`. -/
def chStarts : List Char → List Char → Bool
  | [], _ => true
  | _ :: _, [] => false
  | a :: as, b :: bs => a == b && chStarts as bs

/-- Character-list containment, the semantics of Python's `needle in hay`
on strings (an empty needle is contained in everything). -/
def chContains (hay needle : List Char) : Bool :=
  match hay with
  | [] => needle.isEmpty
  | _ :: t => chStarts needle hay || chContains t needle

/-- Python `needle in hay` on strings. -/
def strContains (hay needle : String) : Bool :=
  chContains hay.toList needle.toList

/-- A skill dictionary as consumed by `embed_agent` / `semantic_search`:
`skill.get("name")` / `skill.get("description")` may be absent. -/
structure SkillDict where
  name : Option String
  description : Option String
deriving DecidableEq, Repr

/-- An agent-card dictionary as consumed by `embed_agent` and the
`matched_on` computation: keys may be absent. -/
structure AgentCardDict where
  name : Option String
  description : Option String
  skills : List SkillDict
deriving DecidableEq, Repr

/-- Python truthiness of `d.get(key)` for string values: the walrus tests
`if value := d.get(key)` succeed exactly when the key is present and the
string is non-empty. -/
def truthy : Option String → Option String
  | some s => if s = "" then none else some s
  | none => none

/-- One `"Skill: {skill.name}[ - {skill.description}]"` segment, from
`embed_agent`: the name defaults to `""`, the description is appended only
when truthy. -/
def skillText (s : SkillDict) : String :=
  match truthy s.description with
  | some d => "Skill: " ++ s.name.getD "" ++ " - " ++ d
  | none => "Skill: " ++ s.name.getD ""

/-- The combined text built by `EmbeddingService.embed_agent`
(embeddings.py lines 94-117): optional `Agent:` and `Description:`
segments, one segment per skill, an optional `Tags:` segment, joined with
`" | "`; when no segment applies the source falls back to
`agent_card.get("name", "unknown")`. -/
def composeAgentText (card : AgentCardDict) (tags : List String) : String :=
  let p1 := match truthy card.name with
    | some n => ["Agent: " ++ n]
    | none => []
  let p2 := match truthy card.description with
    | some d => ["Description: " ++ d]
    | none => []
  let p3 := card.skills.map skillText
  let p4 := if tags = [] then [] else ["Tags: " ++ String.intercalate ", " tags]
  let parts := p1 ++ p2 ++ p3 ++ p4
  if parts = [] then card.name.getD "unknown" else String.intercalate " | " parts

/-- The claim's skill segment, worded from the spec:
`"Skill: {skill.name}[ - {skill.description}]"`. -/
def specSkillSeg (s : SkillDict) : String :=
  "Skill: " ++ s.name.getD "" ++
    (match truthy s.description with
      | some d => " - " ++ d
      | none => "")

/-- The four segment groups of the spec's composer, in the spec's order:
name, description if present, one entry per skill, tags if non-empty. -/
def specSegs (card : AgentCardDict) (tags : List String) : List String :=
  ((truthy card.name).map (fun n => "Agent: " ++ n)).toList ++
    ((truthy card.description).map (fun d => "Description: " ++ d)).toList ++
    card.skills.map specSkillSeg ++
    (if tags = [] then [] else ["Tags: " ++ String.intercalate ", " tags])

/-- Composer following the claim's words literally: segments joined with
`" | "`; if no segments apply it falls back to the bare name, or to the
fixed placeholder when the name is also empty. -/
def specCompose (card : AgentCardDict) (tags : List String) : String :=
  let segs := specSegs card tags
  if segs = [] then
    match card.name with
    | some n => if n = "" then "unknown" else n
    | none => "unknown"
  else String.intercalate " | " segs

/-- The amended composer: identical to the claim's wording except that the
placeholder is used only when the name key is absent — an empty-string name
falls back to the empty string itself, as `card.get("name", "unknown")`
does. -/
def specComposeAmended (card : AgentCardDict) (tags : List String) : String :=
  let segs := specSegs card tags
  if segs = [] then card.name.getD "unknown" else String.intercalate " | " segs

/-- Model of `np.dot` on equal-length vectors, over `ℝ`. -/
noncomputable def npDot (v1 v2 : List ℝ) : ℝ :=
  (List.zipWith (fun a b => a * b) v1 v2).sum

/-- Model of `np.linalg.norm`, the Euclidean norm, over `ℝ`. -/
noncomputable def npNorm (v : List ℝ) : ℝ :=
  Real.sqrt ((v.map (fun x => x * x)).sum)

open Classical in
/-- Embedding of `EmbeddingService.compute_similarity` (embeddings.py lines 123-145):
returns `0.0` when either norm is zero, otherwise the cosine ratio clamped
into `[0,1]` by `max(0.0, min(1.0, similarity))`. -/
noncomputable def compute_similarity (v1 v2 : List ℝ) : ℝ :=
  let norm1 := npNorm v1
  let norm2 := npNorm v2
  if norm1 = 0 ∨ norm2 = 0 then 0
  else max 0 (min 1 (npDot v1 v2 / (norm1 * norm2)))

/-- A row of the `agent_embeddings` table (database.py, `store_embedding`):
`agent_id` with its vector and the source text. -/
structure EmbeddingEntry where
  agent_id : String
  embedding : List ℚ
  text_content : String
deriving DecidableEq, Repr

/-- Embedding of `DatabaseService.store_embedding` (database.py lines 83-108):
`INSERT ... ON CONFLICT (agent_id) DO UPDATE` — when a row with the
`agent_id` exists its vector and text are replaced, otherwise a new row is
appended. -/
def store_embedding (st : List EmbeddingEntry) (agent_id : String)
    (embedding : List ℚ) (text_content : String) : List EmbeddingEntry :=
  if st.any (fun e => e.agent_id == agent_id) then
    st.map (fun e =>
      if e.agent_id == agent_id then ⟨e.agent_id, embedding, text_content⟩ else e)
  else st ++ [⟨agent_id, embedding, text_content⟩]

/-- Lookup of the row keyed by `agent_id`. -/
def storeLookup (st : List EmbeddingEntry) (agent_id : String) :
    Option EmbeddingEntry :=
  st.find? (fun e => e.agent_id == agent_id)

/-- One candidate row of the `search_similar` SQL join: the registry data
plus the similarity `1 - (e.embedding <=> $1::vector)` that PostgreSQL
computes for the query at hand, abstracted as a rational `score`. -/
structure DbRow where
  agent_id : String
  agent_card : AgentCardDict
  tags : List String
  verified : Bool
  score : ℚ
deriving DecidableEq, Repr

/-- The `WHERE` clause of `search_similar` (database.py lines 143-155):
similarity at least `min_score`, `r.verified = true` when `verified_only`,
and array overlap `r.tags && tags_filter` — the tag condition is added
only when the Python list is truthy (present and non-empty). -/
def rowPasses (min_score : ℚ) (tags_filter : Option (List String))
    (verified_only : Bool) (r : DbRow) : Bool :=
  decide (min_score ≤ r.score) &&
    (!verified_only || r.verified) &&
    (match tags_filter with
      | none => true
      | some ts => if ts = [] then true else r.tags.any (fun t => ts.contains t))

/-- The comparator of `ORDER BY similarity DESC`: descending score, no
secondary key. -/
def scoreDesc (a b : DbRow) : Bool := decide (b.score ≤ a.score)

/-- Embedding of `DatabaseService.search_similar` (database.py lines 110-174): filter by
the `WHERE` clause, `ORDER BY similarity DESC` (no secondary key in the
SQL; modelled as a stable sort on the store's row order), `LIMIT top_k`. -/
def search_similar (rows : List DbRow) (top_k : Nat) (min_score : ℚ)
    (tags_filter : Option (List String)) (verified_only : Bool) : List DbRow :=
  (((rows.filter (rowPasses min_score tags_filter verified_only)).mergeSort
      scoreDesc).take top_k)

/-- Python `round(x, 4)`, rounding to the nearest multiple of `10 ^ (-4)`. -/
def roundTo4 (x : ℚ) : ℚ := (round (x * 10000) : ℤ) / 10000

/-- The `matched_on` heuristic of `semantic_search` (main.py lines 181-189):
case-insensitive containment of the full query in the name, else in some
skill name, else in some tag, defaulting to `"description"`. -/
def matchedOnOf (query : String) (card : AgentCardDict) (tags : List String) :
    String :=
  if strContains (card.name.getD "").toLower query.toLower then "name"
  else if card.skills.any
      (fun s => strContains (s.name.getD "").toLower query.toLower) then "skills"
  else if tags.any (fun t => strContains t.toLower query.toLower) then "tags"
  else "description"

/-- One element of `SemanticSearchResponse.results` (main.py lines 191-198),
without the fields that are copied through verbatim from the row. -/
structure SearchHit where
  agent_id : String
  tags : List String
  verified : Bool
  similarity_score : ℚ
  matched_on : String
deriving DecidableEq, Repr

/-- Result construction of `semantic_search` for one candidate row:
`similarity_score = round(similarity, 4)` and the `matched_on`
heuristic. -/
def formatHit (query : String) (r : DbRow) : SearchHit :=
  { agent_id := r.agent_id
    tags := r.tags
    verified := r.verified
    similarity_score := roundTo4 r.score
    matched_on := matchedOnOf query r.agent_card r.tags }

/-- The `semantic_search` handler (main.py lines 141-211) after the query
has been embedded: `search_similar` over the store followed by result
formatting, in the order received from the store. -/
def semantic_search (rows : List DbRow) (query : String) (top_k : Nat)
    (min_score : ℚ) (tags_filter : Option (List String))
    (verified_only : Bool) : List SearchHit :=
  (search_similar rows top_k min_score tags_filter verified_only).map
    (formatHit query)

/-- The pydantic validation of `SemanticSearchRequest` (models.py lines
53-58): `top_k` has `ge=1, le=100`, `min_score` has `ge=0, le=1`, and
`query` is an unconstrained required string. -/
def validateRequest (query : String) (top_k : Int) (min_score : ℚ) : Bool :=
  decide (1 ≤ top_k) && decide (top_k ≤ 100) &&
    decide (0 ≤ min_score) && decide (min_score ≤ 1)

/-- Validator following the claim's words: additionally rejects an empty
query. -/
def specValidate (query : String) (top_k : Int) (min_score : ℚ) : Bool :=
  decide (query ≠ "") && decide (1 ≤ top_k) && decide (top_k ≤ 100) &&
    decide (0 ≤ min_score) && decide (min_score ≤ 1)

/-- One agent of the directory snapshot returned by `get_all_agents`. -/
structure AgentSnap where
  agent_id : String
  agent_card : AgentCardDict
  tags : List String
deriving DecidableEq, Repr

/-- The `text_content` built inside the `index_all_agents` loop (main.py
lines 282-289): an unconditional `Agent:` segment with the name defaulting
to `""`, the bare description when truthy, one `Skill:` segment per skill,
and a `Tags:` segment when the tag list is non-empty. -/
def indexAllText (card : AgentCardDict) (tags : List String) : String :=
  let p1 := ["Agent: " ++ card.name.getD ""]
  let p2 := match truthy card.description with
    | some d => [d]
    | none => []
  let p3 := card.skills.map (fun s => "Skill: " ++ s.name.getD "")
  let p4 := if tags = [] then [] else ["Tags: " ++ String.intercalate ", " tags]
  String.intercalate " | " (p1 ++ p2 ++ p3 ++ p4)

/-- State of the `index_all_agents` loop: `indexed_count`, `failed_count`,
and the embeddings table. -/
structure IndexState where
  indexed_count : Nat
  failed_count : Nat
  store : List EmbeddingEntry
deriving DecidableEq, Repr

/-- One iteration of the `index_all_agents` loop (main.py lines 273-297):
the fallible embed-and-store step for one agent is guarded by
`try/except` — on success the embedding is upserted and `indexed_count`
incremented, on any failure `failed_count` is incremented and the loop
continues. `embedF` models the fallible `embed_agent` + `store_embedding`
step: `Except.ok v` means the agent embeds to `v` and the write succeeds,
`Except.error` means the step raises (no write happens). -/
def index_step (embedF : AgentSnap → Except String (List ℚ))
    (st : IndexState) (a : AgentSnap) : IndexState :=
  match embedF a with
  | Except.ok v =>
      { indexed_count := st.indexed_count + 1
        failed_count := st.failed_count
        store := store_embedding st.store a.agent_id v
          (indexAllText a.agent_card a.tags) }
  | Except.error _ =>
      { indexed_count := st.indexed_count
        failed_count := st.failed_count + 1
        store := st.store }

/-- The `index_all_agents` handler (main.py lines 253-309) after the
snapshot has been obtained: fold the per-agent step over the snapshot,
starting from zero counts. -/
def index_all (embedF : AgentSnap → Except String (List ℚ))
    (agents : List AgentSnap) (st0 : List EmbeddingEntry) : IndexState :=
  agents.foldl (index_step embedF) ⟨0, 0, st0⟩

/-- Whether the fallible per-agent step fails. -/
def stepFails (embedF : AgentSnap → Except String (List ℚ))
    (a : AgentSnap) : Bool :=
  match embedF a with
  | Except.ok _ => false
  | Except.error _ => true

/-- The ordering the claim asserts for search results: descending score,
ties broken by ascending `agent_id`. -/
def claimOrdered (l : List SearchHit) : Prop :=
  l.Pairwise (fun a b =>
    b.similarity_score < a.similarity_score ∨
      (b.similarity_score = a.similarity_score ∧ a.agent_id < b.agent_id))

/-- The claim's `matched_on` rule as a relation: the label names the first
of name, skill names, tags that contains the query case-insensitively,
defaulting to `"description"`. -/
def matchedOnSpec (query : String) (card : AgentCardDict)
    (tags : List String) (m : String) : Prop :=
  let inName := strContains (card.name.getD "").toLower query.toLower = true
  let inSkill := ∃ s ∈ card.skills,
    strContains (s.name.getD "").toLower query.toLower = true
  let inTag := ∃ t ∈ tags, strContains t.toLower query.toLower = true
  (m = "name" ∧ inName) ∨
    (m = "skills" ∧ ¬inName ∧ inSkill) ∨
    (m = "tags" ∧ ¬inName ∧ ¬inSkill ∧ inTag) ∨
    (m = "description" ∧ ¬inName ∧ ¬inSkill ∧ ¬inTag)

/-- A card used by the concrete evaluation examples below. -/
def exCard : AgentCardDict := ⟨some "x", none, []⟩

/-- A card whose name key is present but holds the empty string. -/
def emptyNameCard : AgentCardDict := ⟨some "", none, []⟩

/-- A candidate whose raw similarity `0.50004` clears a `min_score` of
`0.50003` but rounds down to `0.5`. -/
def cexRow : DbRow := ⟨"a", exCard, [], false, 12501/25000⟩

/-- Two candidates with equal score whose store order is descending by
`agent_id`. -/
def rowTieB : DbRow := ⟨"b", exCard, [], false, 9/10⟩

/-- See `rowTieB`. -/
def rowTieA : DbRow := ⟨"a", exCard, [], false, 9/10⟩

/-- A verified candidate used by the range example. -/
def wRow : DbRow := ⟨"w", exCard, ["nlp"], true, 3/4⟩

/-- Directory snapshot agents for the batch-indexing example. -/
def exAgent1 : AgentSnap := ⟨"a1", exCard, []⟩

/-- The one agent of the example snapshot whose embedding step fails. -/
def exAgentBad : AgentSnap := ⟨"bad", exCard, []⟩

/-- See `exAgent1`. -/
def exAgent2 : AgentSnap := ⟨"a2", exCard, []⟩

/-- The example snapshot: three agents, the middle one failing. -/
def exAgents : List AgentSnap := [exAgent1, exAgentBad, exAgent2]

/-- Example fallible embed-and-store step: fails exactly on `"bad"`. -/
def exEmbedF (a : AgentSnap) : Except String (List ℚ) :=
  if a.agent_id = "bad" then Except.error "embedding failed"
  else Except.ok [1/2, 1/2]

theorem skillText_eq_specSkillSeg (s : SkillDict) :
    skillText s = specSkillSeg s := by
  unfold skillText specSkillSeg
  cases truthy s.description <;> simp [String.append_assoc]

/-- Claim C3 (amended): the text composed by `embed_agent` is the claimed
segment sequence joined with `" | "`, except that the no-segment fallback
is the raw `card.get("name", "unknown")`: the placeholder appears only
when the name key is absent, while an empty-string name yields the empty
string. Determinism is inherent: the composer is embedded as a pure
function of the card and tags. -/
theorem embed_agent_text_spec (card : AgentCardDict) (tags : List String) :
    composeAgentText card tags = specComposeAmended card tags := by
  have hfun : skillText = specSkillSeg := funext skillText_eq_specSkillSeg
  unfold composeAgentText specComposeAmended specSegs
  cases hn : truthy card.name <;> cases hd : truthy card.description <;>
    simp [hn, hd, hfun]

/-- Claim C3 counterexample: on a card whose name is the empty string and
which has no description, skills or tags, the source composes the empty
string, while the claim prescribes the fixed placeholder. -/
theorem embed_agent_text_cex :
    composeAgentText emptyNameCard [] = "" ∧
      specCompose emptyNameCard [] = "unknown" ∧
      ("" : String) ≠ "unknown" :=
  ⟨rfl, rfl, by decide⟩

/-- Claim C6 (amended): the pydantic validation of `SemanticSearchRequest`
accepts a request exactly when `1 ≤ top_k ≤ 100` and `0 ≤ min_score ≤ 1`;
the query string is not constrained. The bounds are checked at request
parsing, before the handler embeds the query or touches the store. -/
theorem validateRequest_bounds (query : String) (top_k : Int)
    (min_score : ℚ) :
    validateRequest query top_k min_score = true ↔
      1 ≤ top_k ∧ top_k ≤ 100 ∧ 0 ≤ min_score ∧ min_score ≤ 1 := by
  simp [validateRequest, and_assoc]

/-- Claim C6 counterexample: a request with an empty query and in-range
`top_k`, `min_score` passes the source's validation, though the claim says
it must be rejected. -/
theorem validateRequest_cex :
    validateRequest "" 10 (1/2) = true ∧ specValidate "" 10 (1/2) = false := by
  constructor <;> norm_num [validateRequest, specValidate]

theorem store_embedding_ids (st : List EmbeddingEntry) (id : String)
    (v : List ℚ) (t : String) :
    (store_embedding st id v t).map (fun e => e.agent_id) =
      if st.any (fun e => e.agent_id == id) then
        st.map (fun e => e.agent_id)
      else st.map (fun e => e.agent_id) ++ [id] := by
  unfold store_embedding
  by_cases h : st.any (fun e => e.agent_id == id)
  · rw [if_pos h, if_pos h, List.map_map]
    exact List.map_congr_left fun e _ => by
      by_cases hc : e.agent_id = id <;> simp [hc]
  · rw [if_neg h, if_neg h]
    simp

theorem any_of_mem_ids (st : List EmbeddingEntry) (id : String)
    (h : id ∈ st.map (fun e => e.agent_id)) :
    st.any (fun e => e.agent_id == id) = true := by
  rw [List.any_eq_true]
  obtain ⟨e, he, rfl⟩ := List.mem_map.mp h
  exact ⟨e, he, by simp⟩

theorem mem_store_embedding_ids (st : List EmbeddingEntry) (id : String)
    (v : List ℚ) (t : String) :
    id ∈ (store_embedding st id v t).map (fun e => e.agent_id) := by
  rw [store_embedding_ids]
  by_cases h : st.any (fun e => e.agent_id == id)
  · rw [if_pos h]
    rw [List.any_eq_true] at h
    obtain ⟨e, he, hbeq⟩ := h
    exact List.mem_map.mpr ⟨e, he, by simpa using hbeq⟩
  · rw [if_neg h]
    simp

theorem store_embedding_nodup (st : List EmbeddingEntry) (id : String)
    (v : List ℚ) (t : String)
    (h : (st.map (fun e => e.agent_id)).Nodup) :
    ((store_embedding st id v t).map (fun e => e.agent_id)).Nodup := by
  rw [store_embedding_ids]
  by_cases hany : st.any (fun e => e.agent_id == id)
  · rwa [if_pos hany]
  · rw [if_neg hany, List.nodup_append]
    refine ⟨h, List.nodup_singleton _, ?_⟩
    intro x hx hmem
    rw [List.mem_singleton] at hmem
    subst hmem
    exact (Bool.not_eq_true _).mpr (by simpa using hany) (any_of_mem_ids st x hx)

/-- Claim C4: the `ON CONFLICT (agent_id) DO UPDATE` upsert preserves
uniqueness of `agent_id` in the embeddings table, and storing the same
agent twice with identical input leaves exactly one row for that
`agent_id`. -/
theorem store_embedding_idempotent (st : List EmbeddingEntry) (id : String)
    (v : List ℚ) (t : String)
    (h : (st.map (fun e => e.agent_id)).Nodup) :
    ((store_embedding st id v t).map (fun e => e.agent_id)).Nodup ∧
      ((store_embedding (store_embedding st id v t) id v t).map
        (fun e => e.agent_id)).count id = 1 := by
  refine ⟨store_embedding_nodup st id v t h, ?_⟩
  have h1 := store_embedding_nodup st id v t h
  have h2 := store_embedding_nodup (store_embedding st id v t) id v t h1
  exact List.count_eq_one_of_mem h2
    (mem_store_embedding_ids (store_embedding st id v t) id v t)

/-- Claim C4 witness: the uniqueness statement evaluated on a concrete
store. -/
theorem store_embedding_idempotent_witness :
    ((store_embedding [] "a" [1/2] "t").map (fun e => e.agent_id)).Nodup ∧
      ((store_embedding (store_embedding [] "a" [1/2] "t") "a" [1/2]
        "t").map (fun e => e.agent_id)).count "a" = 1 :=
  store_embedding_idempotent [] "a" [1/2] "t" (by simp)

theorem npDot_comm (v1 v2 : List ℝ) : npDot v1 v2 = npDot v2 v1 := by
  unfold npDot
  rw [List.zipWith_comm_of_comm _ mul_comm]

theorem sumsq_nonneg (v : List ℝ) : 0 ≤ (v.map (fun x => x * x)).sum :=
  List.sum_nonneg fun x hx => by
    obtain ⟨y, _, rfl⟩ := List.mem_map.mp hx
    exact mul_self_nonneg y

theorem npNorm_mul_self (v : List ℝ) :
    npNorm v * npNorm v = (v.map (fun x => x * x)).sum :=
  Real.mul_self_sqrt (sumsq_nonneg v)

theorem npDot_self (v : List ℝ) :
    npDot v v = (v.map (fun x => x * x)).sum := by
  unfold npDot
  rw [List.zipWith_same]

/-- Claim C7: `compute_similarity` is symmetric, its value on a vector with
itself is exactly `1` when the vector has non-zero norm (the model works
over `ℝ`, so "up to floating tolerance" becomes exact equality), and its
value always lies in `[0,1]` thanks to the final clamp. -/
theorem compute_similarity_metric (v1 v2 v : List ℝ)
    (h1 : npNorm v1 ≠ 0) (h2 : npNorm v2 ≠ 0) (hv : npNorm v ≠ 0) :
    compute_similarity v1 v2 = compute_similarity v2 v1 ∧
      compute_similarity v v = 1 ∧
      0 ≤ compute_similarity v1 v2 ∧ compute_similarity v1 v2 ≤ 1 := by
  refine ⟨?_, ?_, ?_, ?_⟩
  · unfold compute_similarity
    dsimp only
    rw [npDot_comm, mul_comm (npNorm v2) (npNorm v1)]
    by_cases h : npNorm v1 = 0 ∨ npNorm v2 = 0
    · rw [if_pos h, if_pos h.symm]
    · rw [if_neg h, if_neg (mt Or.symm h)]
  · unfold compute_similarity
    dsimp only
    rw [if_neg (by tauto : ¬(npNorm v = 0 ∨ npNorm v = 0))]
    rw [npDot_self, ← npNorm_mul_self, div_self (mul_ne_zero hv hv)]
    norm_num
  · unfold compute_similarity
    dsimp only
    by_cases h : npNorm v1 = 0 ∨ npNorm v2 = 0
    · rw [if_pos h]
    · rw [if_neg h]
      exact le_max_left 0 _
  · unfold compute_similarity
    dsimp only
    by_cases h : npNorm v1 = 0 ∨ npNorm v2 = 0
    · rw [if_pos h]; norm_num
    · rw [if_neg h]
      exact max_le (by norm_num) (min_le_left 1 _)

theorem npNorm_single_one : npNorm [(1 : ℝ)] = 1 := by
  simp [npNorm]

/-- Claim C7 witness: self-similarity of the concrete unit vector `[1]`. -/
theorem compute_similarity_metric_witness :
    compute_similarity [(1 : ℝ)] [(1 : ℝ)] = 1 := by
  have h : npNorm [(1 : ℝ)] ≠ 0 := by
    rw [npNorm_single_one]; norm_num
  exact (compute_similarity_metric [(1 : ℝ)] [(1 : ℝ)] [(1 : ℝ)] h h h).2.1

/-- Claim C10: `compute_similarity` is total: when either input has zero
norm it returns exactly `0`, and the division branch is reached only when
both norms are non-zero, in which case the divisor `norm1 * norm2` is
non-zero. -/
theorem compute_similarity_total (v1 v2 : List ℝ) :
    (npNorm v1 = 0 ∨ npNorm v2 = 0 → compute_similarity v1 v2 = 0) ∧
      (npNorm v1 ≠ 0 → npNorm v2 ≠ 0 →
        npNorm v1 * npNorm v2 ≠ 0 ∧
          compute_similarity v1 v2 =
            max 0 (min 1 (npDot v1 v2 / (npNorm v1 * npNorm v2)))) := by
  constructor
  · intro h
    unfold compute_similarity
    dsimp only
    rw [if_pos h]
  · intro h1 h2
    refine ⟨mul_ne_zero h1 h2, ?_⟩
    unfold compute_similarity
    dsimp only
    rw [if_neg (by tauto)]

/-- Claim C10 witness: the zero vector `[0]` against `[1]` yields exactly
`0`. -/
theorem compute_similarity_total_witness :
    compute_similarity [(0 : ℝ)] [(1 : ℝ)] = 0 := by
  have h0 : npNorm [(0 : ℝ)] = 0 := by simp [npNorm]
  exact (compute_similarity_total [(0 : ℝ)] [(1 : ℝ)]).1 (Or.inl h0)

theorem round_rat_mono {x y : ℚ} (h : x ≤ y) : round x ≤ round y := by
  rw [round_eq, round_eq]
  exact Int.floor_mono (by linarith)

theorem roundTo4_mono {x y : ℚ} (h : x ≤ y) : roundTo4 x ≤ roundTo4 y := by
  unfold roundTo4
  have h1 : round (x * 10000) ≤ round (y * 10000) :=
    round_rat_mono (by linarith)
  have h2 : ((round (x * 10000) : ℤ) : ℚ) ≤ ((round (y * 10000) : ℤ) : ℚ) := by
    exact_mod_cast h1
  exact (div_le_div_right (by norm_num : (0:ℚ) < 10000)).mpr h2

theorem roundTo4_lb (x : ℚ) : x - 1/20000 ≤ roundTo4 x := by
  unfold roundTo4
  rw [round_eq, le_div_iff (by norm_num : (0:ℚ) < 10000)]
  have h2 : (x * 10000 + 1/2) - 1 < ((⌊x * 10000 + 1/2⌋ : ℤ) : ℚ) :=
    Int.sub_one_lt_floor (x * 10000 + 1/2)
  linarith

theorem roundTo4_nonneg {x : ℚ} (h : 0 ≤ x) : 0 ≤ roundTo4 x := by
  have h0 : roundTo4 0 = 0 := by norm_num [roundTo4]
  have h1 := roundTo4_mono h
  rwa [h0] at h1

theorem roundTo4_le_one {x : ℚ} (h : x ≤ 1) : roundTo4 x ≤ 1 := by
  have h0 : roundTo4 1 = 1 := by
    unfold roundTo4
    rw [one_mul, round_eq]
    norm_num
  have h1 := roundTo4_mono h
  rwa [h0] at h1

theorem scoreDesc_trans :
    ∀ a b c : DbRow, scoreDesc a b → scoreDesc b c → scoreDesc a c := by
  intro a b c hab hbc
  simp only [scoreDesc, decide_eq_true_eq] at *
  exact le_trans hbc hab

theorem scoreDesc_total : ∀ a b : DbRow, scoreDesc a b || scoreDesc b a := by
  intro a b
  simp only [scoreDesc, Bool.or_eq_true, decide_eq_true_eq]
  exact le_total b.score a.score

theorem search_similar_mem (rows : List DbRow) (top_k : Nat) (min_score : ℚ)
    (tf : Option (List String)) (vo : Bool) :
    ∀ r ∈ search_similar rows top_k min_score tf vo,
      r ∈ rows ∧ min_score ≤ r.score := by
  intro r hr
  unfold search_similar at hr
  have h1 : r ∈ (rows.filter (rowPasses min_score tf vo)).mergeSort scoreDesc :=
    List.mem_of_mem_take hr
  rw [List.mem_mergeSort] at h1
  have h2 := List.mem_filter.mp h1
  refine ⟨h2.1, ?_⟩
  have h3 := h2.2
  unfold rowPasses at h3
  simp only [Bool.and_eq_true, decide_eq_true_eq] at h3
  exact h3.1.1

theorem search_similar_sorted (rows : List DbRow) (top_k : Nat)
    (min_score : ℚ) (tf : Option (List String)) (vo : Bool) :
    (search_similar rows top_k min_score tf vo).Pairwise
      (fun a b => b.score ≤ a.score) := by
  unfold search_similar
  have hs := List.sorted_mergeSort scoreDesc_trans scoreDesc_total
    (rows.filter (rowPasses min_score tf vo))
  have hp : ((rows.filter (rowPasses min_score tf vo)).mergeSort
      scoreDesc).Pairwise (fun a b : DbRow => b.score ≤ a.score) :=
    hs.imp fun hab => by
      simpa only [scoreDesc, decide_eq_true_eq] using hab
  exact hp.sublist (List.take_sublist _ _)

/-- Claim C1 (amended): for every search, the result count is at most
`top_k`, the results are sorted in descending order of `similarity_score`,
and every candidate clears `min_score` on its raw (pre-rounding) score —
hence every returned `similarity_score` is at least
`min_score - 1/20000`. Because `round(similarity, 4)` is applied after the
store filters on the raw score, the returned score itself can fall below a
`min_score` that has more than four decimal digits. -/
theorem semantic_search_bounds (rows : List DbRow) (query : String)
    (top_k : Nat) (min_score : ℚ) (tf : Option (List String)) (vo : Bool) :
    (semantic_search rows query top_k min_score tf vo).length ≤ top_k ∧
      (∀ r ∈ search_similar rows top_k min_score tf vo,
        min_score ≤ r.score) ∧
      (∀ h ∈ semantic_search rows query top_k min_score tf vo,
        min_score - 1/20000 ≤ h.similarity_score) ∧
      (semantic_search rows query top_k min_score tf vo).Pairwise
        (fun a b => b.similarity_score ≤ a.similarity_score) := by
  refine ⟨?_, ?_, ?_, ?_⟩
  · unfold semantic_search search_similar
    rw [List.length_map, List.length_take]
    exact min_le_left _ _
  · intro r hr
    exact (search_similar_mem rows top_k min_score tf vo r hr).2
  · intro h hh
    unfold semantic_search at hh
    obtain ⟨r, hr, rfl⟩ := List.mem_map.mp hh
    have hmin := (search_similar_mem rows top_k min_score tf vo r hr).2
    calc min_score - 1/20000 ≤ r.score - 1/20000 := by linarith
      _ ≤ roundTo4 r.score := roundTo4_lb r.score
  · unfold semantic_search
    rw [List.pairwise_map]
    exact (search_similar_sorted rows top_k min_score tf vo).imp
      fun hab => roundTo4_mono hab

/-- Claim C1 counterexample: with `min_score = 0.50003`, a candidate with
raw similarity `0.50004` passes the store filter but its returned
`similarity_score` is `round(0.50004, 4) = 0.5 < min_score`. -/
theorem semantic_search_min_score_cex :
    (semantic_search [cexRow] "q" 10 (50003/100000) none false).map
        (fun h => h.similarity_score) = [1/2] ∧
      ((1:ℚ)/2) < 50003/100000 := by
  constructor
  · have hs : search_similar [cexRow] 10 (50003/100000) none false = [cexRow] := by
      unfold search_similar
      have hf : [cexRow].filter (rowPasses (50003/100000) none false) =
          [cexRow] := by
        simp [rowPasses, cexRow]
        norm_num
      rw [hf, List.mergeSort_singleton]
      rfl
    unfold semantic_search
    rw [hs]
    simp only [List.map_cons, List.map_nil, List.cons.injEq, and_true]
    show roundTo4 cexRow.score = 1/2
    unfold roundTo4 cexRow
    rw [round_eq]
    norm_num
  · norm_num

/-- Claim C1 witness: the amended bounds evaluated on a concrete store. -/
theorem semantic_search_bounds_witness :
    (semantic_search [cexRow] "q" 10 0 none false).length ≤ 10 ∧
      (0:ℚ) - 1/20000 ≤ (formatHit "q" cexRow).similarity_score := by
  have h := semantic_search_bounds [cexRow] "q" 10 0 none false
  refine ⟨h.1, ?_⟩
  apply h.2.2.1
  have hs : search_similar [cexRow] 10 0 none false = [cexRow] := by
    unfold search_similar
    have hf : [cexRow].filter (rowPasses 0 none false) = [cexRow] := by
      simp [rowPasses, cexRow]
      norm_num
    rw [hf, List.mergeSort_singleton]
    rfl
  unfold semantic_search
  rw [hs]
  simp

/-- Claim C5 (amended): search results are sorted by descending raw score
only — the SQL names no secondary sort key, so no agent_id tie-break is
applied; among equal-score candidates the store's row order is kept (the
`ORDER BY` is modelled as a stable sort). -/
theorem search_similar_tie_order (rows : List DbRow) (top_k : Nat)
    (min_score : ℚ) (tf : Option (List String)) (vo : Bool) :
    (search_similar rows top_k min_score tf vo).Pairwise
        (fun a b => b.score ≤ a.score) ∧
      ∀ a b : DbRow, b.score ≤ a.score →
        List.Sublist [a, b] (rows.filter (rowPasses min_score tf vo)) →
        List.Sublist [a, b] ((rows.filter
          (rowPasses min_score tf vo)).mergeSort scoreDesc) := by
  refine ⟨search_similar_sorted rows top_k min_score tf vo, ?_⟩
  intro a b hle hsub
  exact List.pair_sublist_mergeSort scoreDesc_trans scoreDesc_total
    (by simpa only [scoreDesc, decide_eq_true_eq] using hle) hsub

/-- Claim C5 counterexample: two candidates with equal score stored in the
order `"b"`, `"a"` are returned in that order — not in ascending
`agent_id` order as the claim states. -/
theorem search_tie_break_cex :
    ¬ claimOrdered (semantic_search [rowTieB, rowTieA] "q" 10 0 none
      false) := by
  have hs : semantic_search [rowTieB, rowTieA] "q" 10 0 none false =
      [formatHit "q" rowTieB, formatHit "q" rowTieA] := by
    unfold semantic_search search_similar
    have hf : [rowTieB, rowTieA].filter (rowPasses 0 none false) =
        [rowTieB, rowTieA] := by
      simp [rowPasses, rowTieB, rowTieA]
      norm_num
    rw [hf, List.mergeSort_of_sorted (by simp [scoreDesc, rowTieB, rowTieA])]
    rfl
  rw [hs]
  intro hord
  unfold claimOrdered at hord
  rw [List.pairwise_cons] at hord
  have h1 := hord.1 (formatHit "q" rowTieA) (by simp)
  rcases h1 with h1 | h1
  · simp [formatHit, rowTieA, rowTieB] at h1
  · have h2 := h1.2
    simp only [formatHit, rowTieA, rowTieB] at h2
    rw [String.lt_iff_toList_lt] at h2
    exact absurd h2 (by decide)

/-- Claim C5 witness: the stability statement evaluated on two concrete
equal-score candidates. -/
theorem search_similar_tie_order_witness :
    List.Sublist [rowTieB, rowTieA]
      (([rowTieB, rowTieA].filter (rowPasses 0 none false)).mergeSort
        scoreDesc) := by
  have hf : [rowTieB, rowTieA].filter (rowPasses 0 none false) =
      [rowTieB, rowTieA] := by
    simp [rowPasses, rowTieB, rowTieA]
    norm_num
  apply (search_similar_tie_order [rowTieB, rowTieA] 10 0 none false).2
      rowTieB rowTieA
  · simp [rowTieB, rowTieA]
  · rw [hf]

/-- Claim C8: every returned `similarity_score` lies in `[0,1]` and is an
integer multiple of `10 ^ (-4)`. The lower bound holds because validation
guarantees `min_score ≥ 0` and the store filters on it; the upper bound
holds because the raw score `1 - cosine_distance` is a cosine similarity,
hence at most `1`. -/
theorem semantic_search_score_range (rows : List DbRow) (query : String)
    (top_k : Nat) (min_score : ℚ) (tf : Option (List String)) (vo : Bool)
    (hmin : 0 ≤ min_score) (hub : ∀ r ∈ rows, r.score ≤ 1) :
    ∀ h ∈ semantic_search rows query top_k min_score tf vo,
      0 ≤ h.similarity_score ∧ h.similarity_score ≤ 1 ∧
        ∃ n : ℤ, h.similarity_score = (n : ℚ) / 10000 := by
  intro h hh
  unfold semantic_search at hh
  obtain ⟨r, hr, rfl⟩ := List.mem_map.mp hh
  have hm := search_similar_mem rows top_k min_score tf vo r hr
  refine ⟨roundTo4_nonneg (le_trans hmin hm.2), roundTo4_le_one (hub r hm.1),
    ⟨round (r.score * 10000), rfl⟩⟩

/-- Claim C8 witness: the range statement evaluated on a concrete store. -/
theorem semantic_search_score_range_witness :
    0 ≤ (formatHit "q" wRow).similarity_score ∧
      (formatHit "q" wRow).similarity_score ≤ 1 ∧
      ∃ n : ℤ, (formatHit "q" wRow).similarity_score = (n : ℚ) / 10000 := by
  apply semantic_search_score_range [wRow] "q" 5 (1/2) none false
      (by norm_num)
      (by
        intro r hr
        rw [List.mem_singleton] at hr
        subst hr
        norm_num [wRow])
  have hs : search_similar [wRow] 5 (1/2) none false = [wRow] := by
    unfold search_similar
    have hf : [wRow].filter (rowPasses (1/2) none false) = [wRow] := by
      simp [rowPasses, wRow]
      norm_num
    rw [hf, List.mergeSort_singleton]
    rfl
  unfold semantic_search
  rw [hs]
  simp

/-- Claim C9: result formatting never changes which candidates are returned
or their scores — the output `agent_id`s and (rounded) scores are exactly
those of the store's candidates, in order — and each hit's `matched_on` is
the first of name, skill names, tags that contains the full query
case-insensitively, defaulting to `"description"`. -/
theorem semantic_search_matched_on (rows : List DbRow) (query : String)
    (top_k : Nat) (min_score : ℚ) (tf : Option (List String)) (vo : Bool) :
    (semantic_search rows query top_k min_score tf vo).map
        (fun h => h.agent_id) =
      (search_similar rows top_k min_score tf vo).map
        (fun r => r.agent_id) ∧
      (semantic_search rows query top_k min_score tf vo).map
          (fun h => h.similarity_score) =
        (search_similar rows top_k min_score tf vo).map
          (fun r => roundTo4 r.score) ∧
      ∀ r ∈ search_similar rows top_k min_score tf vo,
        matchedOnSpec query r.agent_card r.tags
          (formatHit query r).matched_on := by
  refine ⟨?_, ?_, ?_⟩
  · unfold semantic_search
    rw [List.map_map]
    rfl
  · unfold semantic_search
    rw [List.map_map]
    rfl
  · intro r _
    unfold matchedOnSpec
    dsimp only
    by_cases h1 : strContains (r.agent_card.name.getD "").toLower
        query.toLower = true
    · exact Or.inl ⟨by simp [formatHit, matchedOnOf, h1], h1⟩
    · by_cases h2 : (r.agent_card.skills.any fun s =>
          strContains (s.name.getD "").toLower query.toLower) = true
      · refine Or.inr (Or.inl ⟨?_, h1, List.any_eq_true.mp h2⟩)
        simp [formatHit, matchedOnOf, h1, h2]
      · by_cases h3 : (r.tags.any fun t =>
            strContains t.toLower query.toLower) = true
        · refine Or.inr (Or.inr (Or.inl
            ⟨?_, h1, fun hex => h2 (List.any_eq_true.mpr hex),
              List.any_eq_true.mp h3⟩))
          simp [formatHit, matchedOnOf, h1, h2, h3]
        · refine Or.inr (Or.inr (Or.inr
            ⟨?_, h1, fun hex => h2 (List.any_eq_true.mpr hex),
              fun hex => h3 (List.any_eq_true.mpr hex)⟩))
          simp [formatHit, matchedOnOf, h1, h2, h3]

/-- Claim C9 witness: the attribution statement evaluated on a concrete
candidate whose fields do not contain the query, so that `matched_on`
defaults to `"description"`. -/
theorem semantic_search_matched_on_witness :
    matchedOnSpec "q" cexRow.agent_card cexRow.tags
      (formatHit "q" cexRow).matched_on := by
  apply (semantic_search_matched_on [cexRow] "q" 10 0 none false).2.2
  have hs : search_similar [cexRow] 10 0 none false = [cexRow] := by
    unfold search_similar
    have hf : [cexRow].filter (rowPasses 0 none false) = [cexRow] := by
      simp [rowPasses, cexRow]
      norm_num
    rw [hf, List.mergeSort_singleton]
    rfl
  rw [hs]
  simp

theorem filter_split_length (embedF : AgentSnap → Except String (List ℚ))
    (l : List AgentSnap) :
    (l.filter fun a => !stepFails embedF a).length +
      (l.filter (stepFails embedF)).length = l.length := by
  induction l with
  | nil => rfl
  | cons a r ihr =>
    by_cases hf : stepFails embedF a <;>
      simp [List.filter_cons, hf] <;> omega

theorem index_foldl_counts (embedF : AgentSnap → Except String (List ℚ))
    (agents : List AgentSnap) (s : IndexState) :
    (agents.foldl (index_step embedF) s).indexed_count =
        s.indexed_count +
          (agents.filter fun a => !stepFails embedF a).length ∧
      (agents.foldl (index_step embedF) s).failed_count =
        s.failed_count + (agents.filter (stepFails embedF)).length := by
  induction agents generalizing s with
  | nil => simp
  | cons a rest ih =>
    cases h : embedF a with
    | ok v =>
      have hstep : index_step embedF s a =
          ⟨s.indexed_count + 1, s.failed_count,
            store_embedding s.store a.agent_id v
              (indexAllText a.agent_card a.tags)⟩ := by
        simp [index_step, h]
      have hsf : stepFails embedF a = false := by simp [stepFails, h]
      refine ⟨?_, ?_⟩
      · rw [List.foldl_cons, hstep, (ih _).1]
        simp [List.filter_cons, hsf]
        omega
      · rw [List.foldl_cons, hstep, (ih _).2]
        simp [List.filter_cons, hsf]
    | error e =>
      have hstep : index_step embedF s a =
          ⟨s.indexed_count, s.failed_count + 1, s.store⟩ := by
        simp [index_step, h]
      have hsf : stepFails embedF a = true := by simp [stepFails, h]
      refine ⟨?_, ?_⟩
      · rw [List.foldl_cons, hstep, (ih _).1]
        simp [List.filter_cons, hsf]
      · rw [List.foldl_cons, hstep, (ih _).2]
        simp [List.filter_cons, hsf]
        omega

theorem storeLookup_store_self (st : List EmbeddingEntry) (id : String)
    (v : List ℚ) (t : String) :
    storeLookup (store_embedding st id v t) id = some ⟨id, v, t⟩ := by
  unfold storeLookup store_embedding
  by_cases h : st.any (fun e => e.agent_id == id)
  · rw [if_pos h, List.find?_map]
    have hcomp : ((fun e : EmbeddingEntry => e.agent_id == id) ∘
        (fun e => if e.agent_id == id then ⟨e.agent_id, v, t⟩ else e)) =
        fun e : EmbeddingEntry => e.agent_id == id := by
      funext e
      by_cases hc : e.agent_id = id <;> simp [hc]
    rw [hcomp]
    rw [List.any_eq_true] at h
    obtain ⟨e0, he0, hbeq⟩ := h
    have hsome : (st.find? fun e => e.agent_id == id).isSome := by
      rw [List.find?_isSome]
      exact ⟨e0, he0, hbeq⟩
    obtain ⟨e1, he1⟩ := Option.isSome_iff_exists.mp hsome
    have hp := List.find?_some he1
    have hid : e1.agent_id = id := by simpa using hp
    rw [he1]
    simp [hid]
  · rw [if_neg h, List.find?_append]
    have hnone : st.find? (fun e => e.agent_id == id) = none := by
      rw [List.find?_eq_none]
      intro x hx hc
      exact h (List.any_eq_true.mpr ⟨x, hx, hc⟩)
    rw [hnone]
    simp

theorem storeLookup_store_other (st : List EmbeddingEntry)
    (id id2 : String) (v : List ℚ) (t : String) (h : id2 ≠ id) :
    storeLookup (store_embedding st id v t) id2 = storeLookup st id2 := by
  unfold storeLookup store_embedding
  by_cases ha : st.any (fun e => e.agent_id == id)
  · rw [if_pos ha, List.find?_map]
    have hcomp : ((fun e : EmbeddingEntry => e.agent_id == id2) ∘
        (fun e => if e.agent_id == id then ⟨e.agent_id, v, t⟩ else e)) =
        fun e : EmbeddingEntry => e.agent_id == id2 := by
      funext e
      by_cases hc : e.agent_id = id <;> simp [hc]
    rw [hcomp]
    cases hf : st.find? (fun e => e.agent_id == id2) with
    | none => rfl
    | some e1 =>
      have hp := List.find?_some hf
      have he1 : e1.agent_id = id2 := by simpa using hp
      simp only [Option.map_some']
      rw [if_neg (by simp [he1, h])]
  · rw [if_neg ha, List.find?_append]
    cases hf : st.find? (fun e => e.agent_id == id2) with
    | some e1 => rfl
    | none => simp [List.find?_cons, Ne.symm h]

theorem index_foldl_lookup_frozen
    (embedF : AgentSnap → Except String (List ℚ))
    (agents : List AgentSnap) (s : IndexState) (id : String)
    (h : ∀ a ∈ agents, a.agent_id ≠ id) :
    storeLookup (agents.foldl (index_step embedF) s).store id =
      storeLookup s.store id := by
  induction agents generalizing s with
  | nil => rfl
  | cons a rest ih =>
    rw [List.foldl_cons, ih _ (fun b hb => h b (List.mem_cons_of_mem a hb))]
    cases hstep : embedF a with
    | ok v =>
      simp only [index_step, hstep]
      exact storeLookup_store_other s.store a.agent_id id v _
        (fun hc => (h a (List.mem_cons_self a rest)) hc.symm)
    | error e => simp [index_step, hstep]

theorem index_foldl_lookup_ok
    (embedF : AgentSnap → Except String (List ℚ))
    (agents : List AgentSnap) (a : AgentSnap) (v : List ℚ)
    (ha : a ∈ agents) (hok : embedF a = Except.ok v)
    (hnodup : (agents.map (fun x => x.agent_id)).Nodup) (s : IndexState) :
    storeLookup (agents.foldl (index_step embedF) s).store a.agent_id =
      some ⟨a.agent_id, v, indexAllText a.agent_card a.tags⟩ := by
  induction agents generalizing s with
  | nil => cases ha
  | cons b rest ih =>
    rw [List.map_cons, List.nodup_cons] at hnodup
    rw [List.foldl_cons]
    rcases List.mem_cons.mp ha with rfl | hmem
    · have hfrozen : ∀ c ∈ rest, c.agent_id ≠ a.agent_id := by
        intro c hc hceq
        exact hnodup.1 (List.mem_map.mpr ⟨c, hc, hceq⟩)
      rw [index_foldl_lookup_frozen embedF rest _ _ hfrozen]
      simp only [index_step, hok]
      exact storeLookup_store_self s.store a.agent_id v _
    · exact ih hmem hnodup.2 _

/-- Claim C2: when the fallible embed-and-store step fails for exactly one
agent of an `N`-agent snapshot, `index_all` completes without raising (it
is embedded as a total fold whose per-agent `try/except` is the
`index_step` case split), reports `indexed_count = N - 1` and
`failed_count = 1`, and every successfully processed agent's embedding is
present in the store. -/
theorem index_all_partial_failure
    (embedF : AgentSnap → Except String (List ℚ))
    (agents : List AgentSnap) (N : Nat)
    (hN : agents.length = N)
    (hone : (agents.filter (stepFails embedF)).length = 1)
    (hnodup : (agents.map (fun x => x.agent_id)).Nodup) :
    (index_all embedF agents []).indexed_count = N - 1 ∧
      (index_all embedF agents []).failed_count = 1 ∧
      ∀ a ∈ agents, ∀ v : List ℚ, embedF a = Except.ok v →
        storeLookup (index_all embedF agents []).store a.agent_id =
          some ⟨a.agent_id, v, indexAllText a.agent_card a.tags⟩ := by
  have hlen := filter_split_length embedF agents
  have hc := index_foldl_counts embedF agents ⟨0, 0, []⟩
  refine ⟨?_, ?_, ?_⟩
  · show (agents.foldl (index_step embedF) ⟨0, 0, []⟩).indexed_count = N - 1
    rw [hc.1]
    dsimp only
    omega
  · show (agents.foldl (index_step embedF) ⟨0, 0, []⟩).failed_count = 1
    rw [hc.2]
    dsimp only
    omega
  · intro a ha v hok
    exact index_foldl_lookup_ok embedF agents a v ha hok hnodup ⟨0, 0, []⟩

/-- Claim C2 witness: a three-agent snapshot whose middle agent fails. -/
theorem index_all_partial_failure_witness :
    (index_all exEmbedF exAgents []).indexed_count = 2 ∧
      (index_all exEmbedF exAgents []).failed_count = 1 ∧
      storeLookup (index_all exEmbedF exAgents []).store "a1" =
        some ⟨"a1", [1/2, 1/2], indexAllText exCard []⟩ := by
  have h := index_all_partial_failure exEmbedF exAgents 3 (by rfl)
    (by simp [exAgents, stepFails, exEmbedF, exAgent1, exAgentBad, exAgent2,
      List.filter_cons])
    (by simp [exAgents, exAgent1, exAgentBad, exAgent2])
  refine ⟨h.1, h.2.1, ?_⟩
  have h2 := h.2.2 exAgent1 (by simp [exAgents]) [1/2, 1/2]
    (by simp [exEmbedF, exAgent1])
  simpa [exAgent1] using h2
